import Mathlib

/-!
Verification of the playback-queue / player-state engine of the `plaii`
desktop music player.

The Lean definitions below are a shallow embedding of the Python source:

* `app/core/models/music.py`       → `MusicD` (the `Music.to_dict()` snapshot)
* `app/core/models/player_state.py`→ `PlayerState`
* `app/utils/helpers.py`           → `normalize_str`, `sort_key`, `sort_list_by`
* `app/data/cache_manager.py`      → `CacheManager` with `get` / `update` / `is_valid`
* `app/data/repositories/player_repository.py` → `update_position`
* `app/services/audio_service.py`  → `get_track_shuffle_mode`,
  `get_track_normal_mode`, `load_music`, `play_previous`,
  `on_audio_position_changed`
* `app/ui/layout/player_bar.py`    → `handle_folder_removal`

Modelling conventions:
* Python dict snapshots of `Music` are the structure `MusicD`; the dict
  equality (`==`, `in`, `list.index`) used by the source is structural
  equality on `MusicD`.
* Python string comparison (`<`, `>`) compares code points
  lexicographically; it is embedded as `strLt` below.
* `random.choice(xs)` is embedded nondeterministically: the track
  resolution returns the exact candidate list the source passes to
  `choice`, and `possibleShuffleResult` says which concrete outcomes are
  possible.
* `time.time()` values are integers (an arbitrary clock unit); only their
  differences are ever compared by the source.
-/

namespace Plaii

/-- Snapshot of a `Music` row as produced by `Music.to_dict()`
(`app/core/models/music.py`).  The `volume`-free fields are exactly the
keys of the dict; optional Python values are `Option`. -/
structure MusicD where
  title : String
  artist : String
  album : String
  album_artist : String
  filename : String
  folder : Option String
  duration : String
  track_number : Option Int := none
  year : Option Int := none
  genre : Option String := none
deriving DecidableEq, Repr

/-- The tri-state `is_repeat` field of `PlayerState`
(`None | "one" | "all"` in the source). -/
inductive RepeatMode where
  | off
  | one
  | all
deriving DecidableEq, Repr

/-- The `PlayerState` dataclass (`app/core/models/player_state.py`).
`volume : float` is omitted: none of the verified operations reads or
writes it.  `current_music`, `playlist` and `played_music` hold `MusicD`
snapshots exactly as the source holds dicts. -/
structure PlayerState where
  is_paused : Bool := true
  is_muted : Bool := false
  is_playing : Bool := false
  is_shuffle : Bool := false
  is_repeat : RepeatMode := RepeatMode.off
  audio_duration : Option Int := none
  audio_position : Option Int := none
  current_music : Option MusicD := none
  current_album : Option String := none
  playlist : List MusicD := []
  playlist_source : String := "all"
  played_music : List MusicD := []
deriving DecidableEq, Repr

/-- Python string `<` on two character lists: lexicographic comparison of
code points.  Used wherever the source compares filenames or sort keys. -/
def strLtL : List Char → List Char → Bool
  | [], [] => false
  | [], _ :: _ => true
  | _ :: _, [] => false
  | c :: cs, d :: ds =>
      if c.toNat < d.toNat then true
      else if d.toNat < c.toNat then false
      else strLtL cs ds

/-- Python `s < t` for strings. -/
def strLt (s t : String) : Bool := strLtL s.data t.data

/-- The combining-mark test of `unicodedata.combining(c) != 0`, restricted
to the Combining Diacritical Marks block that NFD decomposition of Latin
letters produces. -/
def isCombiningMark (c : Char) : Bool :=
  decide (0x300 ≤ c.toNat) && decide (c.toNat ≤ 0x36F)

/-- `normalize_str` (`app/utils/helpers.py`): NFD-decompose, drop combining
marks, lowercase.  NFD decomposition is the identity on strings that
contain no precomposed characters (all inputs considered in this
development), so the embedding filters combining marks and lowercases. -/
def normalize_str (s : String) : String :=
  String.mk ((s.data.filter (fun c => !isCombiningMark c)).map Char.toLower)

/-- The leading digit run matched by `match(r'(\d+)', text)` in
`sort_list_by`'s `sort_key`. -/
def leadingDigitRun (s : String) : List Char := s.data.takeWhile Char.isDigit

/-- `int(...)` of a digit run. -/
def digitRunVal (cs : List Char) : Nat :=
  cs.foldl (fun n c => 10 * n + (c.toNat - 48)) 0

/-- Value of `sort_key(text)` in `sort_list_by` (`app/utils/helpers.py`):
`(0, int(run), text)` when a leading digit run exists, else `(1, text)`. -/
inductive SortKey where
  | num (n : Nat) (text : String)
  | alpha (text : String)
deriving DecidableEq, Repr

/-- The `sort_key` function inside `sort_list_by`. -/
def sort_key (text : String) : SortKey :=
  let run := leadingDigitRun text
  if run = [] then SortKey.alpha text else SortKey.num (digitRunVal run) text

/-- Python `<` on the tuples returned by `sort_key`:
`(0, n, s) < (0, m, t)` iff `n < m` or (`n = m` and `s < t`); any
`(0, ...)` is below any `(1, ...)`; `(1, s) < (1, t)` iff `s < t`. -/
def sortKeyLt : SortKey → SortKey → Bool
  | SortKey.num n s, SortKey.num m t =>
      decide (n < m) || (decide (n = m) && strLt s t)
  | SortKey.num _ _, SortKey.alpha _ => true
  | SortKey.alpha _, SortKey.num _ _ => false
  | SortKey.alpha s, SortKey.alpha t => strLt s t

/-- Insert into an already sorted list, after any element not strictly
greater: the insertion point a stable sort gives. -/
def insertByLt (lt : α → α → Bool) (x : α) : List α → List α
  | [] => [x]
  | y :: ys => if lt x y then x :: y :: ys else y :: insertByLt lt x ys

/-- Stable ascending sort by a strict comparison, processing the input
left to right.  Extensionally this is Python's stable `sorted(list,
key=...)` with `sortKeyLt` as the key comparison. -/
def sortByLt (lt : α → α → Bool) (l : List α) : List α :=
  l.foldl (fun acc x => insertByLt lt x acc) []

/-- `sort_list_by` (`app/utils/helpers.py`) with `reverse=False` (the only
form the verified claims exercise): sort by
`sort_key(normalize_str(getattr(x, key)))`; the attribute lookup is the
function `key`. -/
def sort_list_by (key : α → String) (l : List α) : List α :=
  sortByLt (fun a b => sortKeyLt (sort_key (normalize_str (key a)))
                                 (sort_key (normalize_str (key b)))) l

/-- `CacheManager` cell (`app/data/cache_manager.py`): one optional value,
its write timestamp, and the timeout.  The lock is not modelled: every
public method holds it for its whole body, so each call is one atomic
step. -/
structure CacheManager (T : Type) where
  data : Option T
  timestamp : Int
  timeout : Int
deriving Repr

/-- `CacheManager.is_valid`, with the current time passed explicitly in
place of `time.time()`. -/
def CacheManager.is_valid (c : CacheManager T) (now : Int) : Bool :=
  c.data.isSome && decide (now - c.timestamp < c.timeout)

theorem CacheManager.is_valid_isSome {T : Type} {c : CacheManager T} {now : Int}
    (h : c.is_valid now = true) : c.data.isSome = true := by
  unfold CacheManager.is_valid at h
  exact (Bool.and_eq_true _ _ ▸ h).1

/-- Result of one `CacheManager.get` call: the returned value, the cache
cell afterwards, and whether the loader was invoked. -/
structure GetResult (T : Type) where
  value : T
  cache : CacheManager T
  loaderCalled : Bool

/-- `CacheManager.get` (`app/data/cache_manager.py`, lines 30-47): return
the cached value when valid; otherwise invoke the loader, store its result
with a fresh timestamp, and return it. -/
def CacheManager.get (c : CacheManager T) (now : Int) (loader : Unit → T) :
    GetResult T :=
  if h : c.is_valid now then
    { value := c.data.get (CacheManager.is_valid_isSome h),
      cache := c, loaderCalled := false }
  else
    let v := loader ()
    { value := v,
      cache := { c with data := some v, timestamp := now },
      loaderCalled := true }

/-- Result of one `CacheManager.update` call: the optional returned value,
the cache cell afterwards, and whether the update function was invoked.
`update` takes no loader at all. -/
structure UpdateResult (T : Type) where
  result : Option T
  cache : CacheManager T
  funcCalled : Bool

/-- `CacheManager.update` (`app/data/cache_manager.py`, lines 76-92):
if the cache is invalid return `None` without touching anything; otherwise
apply the function, store the result with a fresh timestamp, and return
it. -/
def CacheManager.update (c : CacheManager T) (now : Int) (update_func : T → T) :
    UpdateResult T :=
  if h : c.is_valid now then
    let v := update_func (c.data.get (CacheManager.is_valid_isSome h))
    { result := some v,
      cache := { c with data := some v, timestamp := now },
      funcCalled := true }
  else
    { result := none, cache := c, funcCalled := false }

/-- One resolution step of `_get_track_shuffle_mode`
(`app/services/audio_service.py`): `candidates` is exactly the list the
source passes to `random.choice` (a singleton for the deterministic
returns, `[]` when the source returns `None`), and `clearsPlayed` records
whether `state.played_music.clear()` was executed on this path. -/
structure ShuffleStep where
  candidates : List MusicD
  clearsPlayed : Bool
deriving DecidableEq, Repr

/-- `AudioService._get_track_shuffle_mode` (`app/services/audio_service.py`,
lines 418-481), with `choice(xs)` embedded as the candidate list `xs`.
The two indexing returns `played_music[current_index ± 1]` are guarded in
the source; the `none` fallbacks of `getElem?` are unreachable under those
guards. -/
def get_track_shuffle_mode (state : PlayerState) (is_next : Bool) : ShuffleStep :=
  match state.current_music with
  | none =>
      if is_next then
        -- choice(state.playlist) if state.playlist else None
        { candidates := state.playlist, clearsPlayed := false }
      else
        -- state.played_music[-1] if state.played_music else None
        match state.played_music.getLast? with
        | some m => { candidates := [m], clearsPlayed := false }
        | none => { candidates := [], clearsPlayed := false }
  | some current =>
      if current ∈ state.played_music then
        let current_index := state.played_music.indexOf current
        if is_next then
          if current_index < state.played_music.length - 1 then
            match state.played_music[current_index + 1]? with
            | some m => { candidates := [m], clearsPlayed := false }
            | none => { candidates := [], clearsPlayed := false }
          else
            let available_music :=
              state.playlist.filter (fun m => !state.played_music.contains m)
            if available_music ≠ [] then
              { candidates := available_music, clearsPlayed := false }
            else if state.is_repeat = RepeatMode.all ∧ state.playlist ≠ [] then
              { candidates := state.playlist, clearsPlayed := true }
            else
              { candidates := [], clearsPlayed := false }
        else
          if 0 < current_index then
            match state.played_music[current_index - 1]? with
            | some m => { candidates := [m], clearsPlayed := false }
            | none => { candidates := [], clearsPlayed := false }
          else
            { candidates := [], clearsPlayed := false }
      else
        if is_next then
          let available_music :=
            state.playlist.filter (fun m => !state.played_music.contains m)
          if available_music ≠ [] then
            { candidates := available_music, clearsPlayed := false }
          else if state.playlist ≠ [] ∧ state.is_repeat = RepeatMode.all then
            { candidates := state.playlist, clearsPlayed := true }
          else
            { candidates := [], clearsPlayed := false }
        else
          -- state.played_music[-1] if state.played_music else None
          match state.played_music.getLast? with
          | some m => { candidates := [m], clearsPlayed := false }
          | none => { candidates := [], clearsPlayed := false }

/-- A concrete outcome `r` is a possible return of
`_get_track_shuffle_mode`: `None` when the candidate list is empty, and
any `choice` over the candidate list otherwise. -/
def possibleShuffleResult (state : PlayerState) (is_next : Bool)
    (r : Option MusicD) : Prop :=
  let step := get_track_shuffle_mode state is_next
  (step.candidates = [] ∧ r = none) ∨ ∃ m ∈ step.candidates, r = some m

instance (state : PlayerState) (is_next : Bool) (r : Option MusicD) :
    Decidable (possibleShuffleResult state is_next r) := by
  unfold possibleShuffleResult
  exact inferInstance

/-- The `played_music` list after a `_get_track_shuffle_mode` call (the
source clears it in place on the repeat-all exhaustion paths). -/
def playedMusicAfterShuffle (state : PlayerState) (is_next : Bool) : List MusicD :=
  if (get_track_shuffle_mode state is_next).clearsPlayed then []
  else state.played_music

/-- The first for-loop of the stale-track branch of
`_get_track_normal_mode`: first playlist entry whose filename compares
greater than the stale current filename. -/
def findFirstAfter : List MusicD → String → Option MusicD
  | [], _ => none
  | m :: rest, current_filename =>
      if strLt current_filename m.filename then some m
      else findFirstAfter rest current_filename

/-- The second for-loop of the stale-track branch of
`_get_track_normal_mode`: keep overwriting `best_match` while the entry's
filename compares less than the stale filename, and break at the first
entry that does not. -/
def prevBestMatch : List MusicD → String → Option MusicD
  | [], _ => none
  | m :: rest, current_filename =>
      if strLt m.filename current_filename then
        match prevBestMatch rest current_filename with
        | some b => some b
        | none => some m
      else none

/-- `AudioService._get_track_normal_mode` (`app/services/audio_service.py`,
lines 483-550).  `playlist[0]` / `playlist[-1]` are `head?` / `getLast?`
(each use is guarded or conditioned on a non-empty playlist in the
source); the indexed accesses are guarded by the index tests. -/
def get_track_normal_mode (state : PlayerState) (is_next : Bool) : Option MusicD :=
  match state.current_music with
  | none =>
      if is_next then state.playlist.head? else state.playlist.getLast?
  | some current =>
      if current ∈ state.playlist then
        let index := state.playlist.indexOf current
        if is_next then
          if index < state.playlist.length - 1 then
            state.playlist[index + 1]?
          else if state.is_repeat = RepeatMode.all then
            state.playlist.head?
          else none
        else
          if 0 < index then
            state.playlist[index - 1]?
          else if state.is_repeat = RepeatMode.all then
            state.playlist.getLast?
          else none
      else
        let current_filename := current.filename
        if is_next then
          match findFirstAfter state.playlist current_filename with
          | some m => some m
          | none => state.playlist.head?
        else
          match prevBestMatch state.playlist current_filename with
          | some b => some b
          | none => state.playlist.getLast?

/-- `AudioService.load_music` effect on the player state
(`app/services/audio_service.py`, lines 65-87): set `current_music` and
`current_album`, append to `played_music` when not already a member. -/
def load_music (state : PlayerState) (music : MusicD) : PlayerState :=
  let state := { state with
    current_music := some music,
    current_album := some music.album }
  if music ∈ state.played_music then state
  else { state with played_music := state.played_music ++ [music] }

/-- What `play_previous` does to the audio backend. -/
inductive PlaybackEffect where
  | seekRestart            -- audio.seek(0); audio.resume()
  | noAction               -- early return, nothing commanded
  | loadTrack (m : MusicD) (alsoPlay : Bool)   -- load_music (+ play())
deriving DecidableEq, Repr

/-- State and backend effect after a `play_previous` call. -/
structure ActionResult where
  state : PlayerState
  effect : PlaybackEffect
deriving Repr

/-- `AudioService.play_previous` (`app/services/audio_service.py`, lines
255-282).  `audioPosition` is what `self.audio.get_current_position()`
reports (`none` for Python `None`); the source's truthiness test `pos and
pos > 3000` is the match below.  In shuffle mode the previous-track
resolution is deterministic (its candidate list has at most one element),
so its result is the head of the candidates.  The `play()` call sets the
paused/playing flags as in the source. -/
def play_previous (state : PlayerState) (audioPosition : Option Int) :
    ActionResult :=
  if (match audioPosition with
      | some p => decide (p ≠ 0) && decide (3000 < p)
      | none => false) then
    { state := state, effect := PlaybackEffect.seekRestart }
  else if state.playlist = [] then
    { state := state, effect := PlaybackEffect.noAction }
  else
    let prev_music :=
      if state.is_shuffle then
        (get_track_shuffle_mode state false).candidates.head?
      else
        get_track_normal_mode state false
    match prev_music with
    | some m =>
        let state' := load_music state m
        if state.is_paused then
          { state := state', effect := PlaybackEffect.loadTrack m false }
        else
          { state := { state' with is_paused := false, is_playing := true },
            effect := PlaybackEffect.loadTrack m true }
    | none =>
        { state := state, effect := PlaybackEffect.noAction }

/-- Observable repository state for `PlayerRepository.update_position`
(`app/data/repositories/player_repository.py`): the cache cell, the
`audio_current_position` column of the store row, and how many store
writes `update_position` has issued. -/
structure PlayerRepositoryState where
  cache : CacheManager PlayerState
  storePosition : Option Int
  storeWrites : Nat
deriving Repr

/-- `PlayerRepository.update_position` (lines 114-136): patch the cached
state's position when the cache is valid, then always issue the
single-column store write. -/
def update_position (repo : PlayerRepositoryState) (now : Int) (position : Int) :
    PlayerRepositoryState :=
  let cache' :=
    if repo.cache.is_valid now then
      (repo.cache.update now
        (fun st => { st with audio_position := some position })).cache
    else repo.cache
  { cache := cache',
    storePosition := some position,
    storeWrites := repo.storeWrites + 1 }

/-- The throttle constant of `AudioService._on_audio_position_changed`:
`if self._position_update_counter >= 10`. -/
def positionUpdateThreshold : Nat := 10

/-- The position-tick state of `AudioService`: the
`_position_update_counter` attribute plus the repository it writes
through. -/
structure AudioTickState where
  position_update_counter : Nat
  repo : PlayerRepositoryState
deriving Repr

/-- `AudioService._on_audio_position_changed` (lines 403-416), with the
threshold as an explicit parameter (the source's value is
`positionUpdateThreshold`): increment the counter; at the threshold call
`update_position` and reset the counter. -/
def on_audio_position_changed (threshold : Nat) (s : AudioTickState)
    (now : Int) (position : Int) : AudioTickState :=
  let counter := s.position_update_counter + 1
  if threshold ≤ counter then
    { position_update_counter := 0,
      repo := update_position s.repo now position }
  else
    { s with position_update_counter := counter }

/-- A sequence of position-change ticks, each a `(time, position)` pair. -/
def runTicks (threshold : Nat) (s : AudioTickState)
    (ticks : List (Int × Int)) : AudioTickState :=
  ticks.foldl (fun acc tp => on_audio_position_changed threshold acc tp.1 tp.2) s

/-- Result of `PlayerBar._handle_folder_removal`: the player state
afterwards and whether `update_player_state` (the durable save) was
called. -/
structure FolderRemovalResult where
  state : PlayerState
  persisted : Bool
deriving Repr

/-- `PlayerBar._handle_folder_removal` (`app/ui/layout/player_bar.py`,
lines 435-472): if the playlist is empty return unchanged; otherwise
filter `playlist` and `played_music` by `music.get('folder') !=
folder_path`, and persist exactly when the playlist length changed. -/
def handle_folder_removal (player_state : PlayerState) (folder_path : String) :
    FolderRemovalResult :=
  if player_state.playlist = [] then
    { state := player_state, persisted := false }
  else
    let original_len := player_state.playlist.length
    let playlist' :=
      player_state.playlist.filter (fun m => m.folder ≠ some folder_path)
    let played' :=
      player_state.played_music.filter (fun m => m.folder ≠ some folder_path)
    let state' := { player_state with playlist := playlist', played_music := played' }
    if playlist'.length ≠ original_len then
      { state := state', persisted := true }
    else
      { state := state', persisted := false }

/-- C6: for every loader and cache cell, two `get` calls within `ttl`
seconds of the first load invoke the loader at most once in total (here:
the first call loads, the second does not) and both return the value the
first load stored; and a `get` call made at least `ttl` seconds after the
stored timestamp invokes the loader again and stores its result with a
fresh timestamp. -/
theorem cache_ttl_get {T : Type} (c0 : CacheManager T) (loader : Unit → T)
    (t1 t2 : Int) :
    (c0.is_valid t1 = false → 0 ≤ t2 - t1 → t2 - t1 < c0.timeout →
      (c0.get t1 loader).loaderCalled = true ∧
      ((c0.get t1 loader).cache.get t2 loader).loaderCalled = false ∧
      (c0.get t1 loader).value = loader () ∧
      ((c0.get t1 loader).cache.get t2 loader).value = (c0.get t1 loader).value) ∧
    (∀ (c : CacheManager T) (v : T) (t3 : Int), c.data = some v →
      c.timeout ≤ t3 - c.timestamp →
      (c.get t3 loader).loaderCalled = true ∧
      (c.get t3 loader).cache.data = some (loader ()) ∧
      (c.get t3 loader).cache.timestamp = t3) := by
  constructor
  · intro h1 _h2 h3
    have hget1 : c0.get t1 loader =
        { value := loader (),
          cache := { c0 with data := some (loader ()), timestamp := t1 },
          loaderCalled := true } := by
      unfold CacheManager.get
      rw [dif_neg]
      simp [h1]
    have hvalid2 :
        (CacheManager.mk (some (loader ())) t1 c0.timeout).is_valid t2 = true := by
      unfold CacheManager.is_valid
      simp [h3]
    rw [hget1]
    refine ⟨rfl, ?_, rfl, ?_⟩ <;>
      · unfold CacheManager.get
        rw [dif_pos hvalid2]
        try simp
  · intro c v t3 hdata h3
    have hinvalid : c.is_valid t3 = false := by
      unfold CacheManager.is_valid
      simp only [Bool.and_eq_false_iff]
      right
      simpa using not_lt.mpr h3
    unfold CacheManager.get
    rw [dif_neg (by simp [hinvalid])]
    exact ⟨rfl, rfl, rfl⟩

/-- C6 witness: a concrete run of both halves of `cache_ttl_get` on a
`Nat` cache with timeout 5. -/
theorem cache_ttl_get_witness :
    ((CacheManager.get (⟨none, 0, 5⟩ : CacheManager Nat) 0 (fun _ => 42)).loaderCalled = true ∧
     ((CacheManager.get (⟨none, 0, 5⟩ : CacheManager Nat) 0 (fun _ => 42)).cache.get 3
        (fun _ => 42)).loaderCalled = false ∧
     (CacheManager.get (⟨none, 0, 5⟩ : CacheManager Nat) 0 (fun _ => 42)).value = 42 ∧
     ((CacheManager.get (⟨none, 0, 5⟩ : CacheManager Nat) 0 (fun _ => 42)).cache.get 3
        (fun _ => 42)).value =
       (CacheManager.get (⟨none, 0, 5⟩ : CacheManager Nat) 0 (fun _ => 42)).value) ∧
    ((CacheManager.get (⟨some 7, 0, 5⟩ : CacheManager Nat) 5 (fun _ => 42)).loaderCalled = true ∧
     (CacheManager.get (⟨some 7, 0, 5⟩ : CacheManager Nat) 5 (fun _ => 42)).cache.data = some 42 ∧
     (CacheManager.get (⟨some 7, 0, 5⟩ : CacheManager Nat) 5 (fun _ => 42)).cache.timestamp = 5) :=
  ⟨(cache_ttl_get ⟨none, 0, 5⟩ (fun _ => 42) 0 3).1 rfl (by decide) (by decide),
   (cache_ttl_get ⟨none, 0, 5⟩ (fun _ => 42) 0 3).2 ⟨some 7, 0, 5⟩ 7 5 rfl (by decide)⟩

/-- C7: `update f` on an invalid cache (no stored value, or expired)
returns nothing, does not invoke `f`, and leaves the cell unchanged —
no loader exists on this path at all (`update` takes none).  On a valid
cache it applies `f`, stores the result, refreshes the timestamp, and
returns the new value. -/
theorem cache_update_requires_valid {T : Type} (c : CacheManager T) (now : Int)
    (f : T → T) :
    (c.is_valid now = false →
      (c.update now f).result = none ∧
      (c.update now f).cache = c ∧
      (c.update now f).funcCalled = false) ∧
    (∀ v, c.data = some v → c.is_valid now = true →
      (c.update now f).result = some (f v) ∧
      (c.update now f).cache.data = some (f v) ∧
      (c.update now f).cache.timestamp = now ∧
      (c.update now f).funcCalled = true) := by
  constructor
  · intro h
    unfold CacheManager.update
    rw [dif_neg (by simp [h])]
    exact ⟨rfl, rfl, rfl⟩
  · intro v hv h
    unfold CacheManager.update
    rw [dif_pos h]
    refine ⟨?_, ?_, rfl, rfl⟩ <;> simp [hv]

/-- C7 witness: `update` on an expired cache is a no-op; on a valid cache
it stores and returns the new value. -/
theorem cache_update_requires_valid_witness :
    ((CacheManager.update (⟨some 7, 0, 5⟩ : CacheManager Nat) 9 (fun n => n + 1)).result = none ∧
     (CacheManager.update (⟨some 7, 0, 5⟩ : CacheManager Nat) 9 (fun n => n + 1)).cache =
       (⟨some 7, 0, 5⟩ : CacheManager Nat) ∧
     (CacheManager.update (⟨some 7, 0, 5⟩ : CacheManager Nat) 9 (fun n => n + 1)).funcCalled = false) ∧
    ((CacheManager.update (⟨some 7, 0, 5⟩ : CacheManager Nat) 3 (fun n => n + 1)).result = some 8 ∧
     (CacheManager.update (⟨some 7, 0, 5⟩ : CacheManager Nat) 3 (fun n => n + 1)).cache.data = some 8 ∧
     (CacheManager.update (⟨some 7, 0, 5⟩ : CacheManager Nat) 3 (fun n => n + 1)).cache.timestamp = 3 ∧
     (CacheManager.update (⟨some 7, 0, 5⟩ : CacheManager Nat) 3 (fun n => n + 1)).funcCalled = true) :=
  ⟨(cache_update_requires_valid ⟨some 7, 0, 5⟩ 9 (fun n => n + 1)).1 (by decide),
   (cache_update_requires_valid ⟨some 7, 0, 5⟩ 3 (fun n => n + 1)).2 7 rfl (by decide)⟩

/-- A concrete music snapshot used by witnesses and counterexamples. -/
def sampleTrack (t fname folderName : String) : MusicD :=
  { title := t, artist := "artist", album := "album", album_artist := "artist",
    filename := fname, folder := some folderName, duration := "3:00" }

/-- C10: whenever the audio backend reports a position strictly greater
than 3000 ms, `play_previous` seeks to 0 and resumes, returning without
consulting previous-track resolution and leaving the whole player state —
in particular `current_music`, `playlist` and `played_music` —
unchanged. -/
theorem play_previous_seek_restart (st : PlayerState) (p : Int)
    (h : 3000 < p) :
    play_previous st (some p) =
      { state := st, effect := PlaybackEffect.seekRestart } := by
  have hp0 : p ≠ 0 := by omega
  unfold play_previous
  rw [if_pos]
  simp [hp0, h]

/-- C10 witness: a state with a distinct previous track available is left
untouched when the position is 5000 ms. -/
theorem play_previous_seek_restart_witness :
    play_previous
      { current_music := some (sampleTrack "B" "b.mp3" "F"),
        playlist := [sampleTrack "A" "a.mp3" "F", sampleTrack "B" "b.mp3" "F"] }
      (some 5000) =
      { state :=
          { current_music := some (sampleTrack "B" "b.mp3" "F"),
            playlist := [sampleTrack "A" "a.mp3" "F", sampleTrack "B" "b.mp3" "F"] },
        effect := PlaybackEffect.seekRestart } :=
  play_previous_seek_restart _ 5000 (by decide)

/-- Track in folder `F1` used by the folder-removal claim. -/
def f1Track : MusicD := sampleTrack "T1" "f1.mp3" "F1"

/-- Track in folder `F2` used by the folder-removal claim. -/
def f2Track : MusicD := sampleTrack "T2" "f2.mp3" "F2"

/-- C1 counterexample: with `current_music` belonging to the removed
folder `F1`, `_handle_folder_removal` filters the playlist down to the
`F2` track but leaves `current_music` pointing at the removed `F1` track —
it does not select the first remaining playlist track, and it changes no
playback flag. -/
theorem folder_removal_keeps_stale_current :
    (handle_folder_removal
        { current_music := some f1Track, playlist := [f1Track, f2Track],
          played_music := [f1Track], is_playing := true } "F1").state.playlist
        = [f2Track] ∧
    f1Track.folder = some "F1" ∧
    (handle_folder_removal
        { current_music := some f1Track, playlist := [f1Track, f2Track],
          played_music := [f1Track], is_playing := true } "F1").state.current_music
        = some f1Track ∧
    f1Track ≠ f2Track ∧
    (handle_folder_removal
        { current_music := some f1Track, playlist := [f1Track, f2Track],
          played_music := [f1Track], is_playing := true } "F1").state.is_playing
        = true := by
  decide

/-- C1 (amended): on a folder-removal event with a non-empty playlist the
handler keeps exactly the playlist and history entries whose folder
differs from the removed path, but leaves `current_music`, the
playing/paused flags and the playback position untouched — it never
selects a replacement track and never commands a stop, even when
`current_music` belonged to the removed folder. -/
theorem folder_removal_filters_lists_only (st : PlayerState) (path : String)
    (h : st.playlist ≠ []) :
    (∀ m, m ∈ (handle_folder_removal st path).state.playlist ↔
       m ∈ st.playlist ∧ m.folder ≠ some path) ∧
    (∀ m, m ∈ (handle_folder_removal st path).state.played_music ↔
       m ∈ st.played_music ∧ m.folder ≠ some path) ∧
    (handle_folder_removal st path).state.current_music = st.current_music ∧
    (handle_folder_removal st path).state.is_playing = st.is_playing ∧
    (handle_folder_removal st path).state.is_paused = st.is_paused ∧
    (handle_folder_removal st path).state.audio_position = st.audio_position := by
  have hstate : (handle_folder_removal st path).state =
      { st with
        playlist := st.playlist.filter (fun m => m.folder ≠ some path),
        played_music := st.played_music.filter (fun m => m.folder ≠ some path) } := by
    unfold handle_folder_removal
    rw [if_neg h]
    dsimp only
    split <;> rfl
  rw [hstate]
  refine ⟨?_, ?_, rfl, rfl, rfl, rfl⟩ <;> intro m <;> simp [List.mem_filter]

/-- C1 witness: the amended filtering behaviour on the two-folder
playlist. -/
theorem folder_removal_filters_lists_only_witness :
    (f2Track ∈ (handle_folder_removal
        { current_music := some f1Track, playlist := [f1Track, f2Track],
          played_music := [f1Track] } "F1").state.playlist ↔
      f2Track ∈ [f1Track, f2Track] ∧ f2Track.folder ≠ some "F1") ∧
    (handle_folder_removal
        { current_music := some f1Track, playlist := [f1Track, f2Track],
          played_music := [f1Track] } "F1").state.current_music = some f1Track :=
  ⟨(folder_removal_filters_lists_only
      { current_music := some f1Track, playlist := [f1Track, f2Track],
        played_music := [f1Track] } "F1" (by decide)).1 f2Track,
   (folder_removal_filters_lists_only
      { current_music := some f1Track, playlist := [f1Track, f2Track],
        played_music := [f1Track] } "F1" (by decide)).2.2.1⟩

/-- C4: in normal mode with `current_music` found in the playlist at
index `i` (its first occurrence), next is `playlist[i+1]` when `i` is not
the last index, `playlist[0]` when it is and repeat is "all", and `none`
otherwise; previous is `playlist[i-1]` when `i > 0`, `playlist[-1]` when
`i = 0` and repeat is "all", and `none` otherwise. -/
theorem normal_mode_positional (st : PlayerState) (cur : MusicD) (i : Nat)
    (_hsh : st.is_shuffle = false)
    (hcur : st.current_music = some cur)
    (hmem : cur ∈ st.playlist)
    (hidx : st.playlist.indexOf cur = i) :
    (get_track_normal_mode st true =
       if i + 1 < st.playlist.length then st.playlist[i + 1]?
       else if st.is_repeat = RepeatMode.all then st.playlist.head?
       else none) ∧
    (get_track_normal_mode st false =
       if 0 < i then st.playlist[i - 1]?
       else if st.is_repeat = RepeatMode.all then st.playlist.getLast?
       else none) := by
  unfold get_track_normal_mode
  rw [hcur]
  simp only [if_pos hmem, hidx]
  constructor
  · by_cases h1 : i + 1 < st.playlist.length
    · have h1' : i < st.playlist.length - 1 := by omega
      simp [h1, h1']
    · have h1' : ¬ i < st.playlist.length - 1 := by omega
      simp [h1, h1']
  · rfl

/-- C4 witness: playlist `[A,B,C]` with current `C`: next is `none`
without repeat and `A` with repeat "all"; previous is `B`. -/
theorem normal_mode_positional_witness :
    get_track_normal_mode
      { current_music := some (sampleTrack "C" "c.mp3" "F"),
        playlist := [sampleTrack "A" "a.mp3" "F", sampleTrack "B" "b.mp3" "F",
                     sampleTrack "C" "c.mp3" "F"] } true = none ∧
    get_track_normal_mode
      { current_music := some (sampleTrack "C" "c.mp3" "F"),
        playlist := [sampleTrack "A" "a.mp3" "F", sampleTrack "B" "b.mp3" "F",
                     sampleTrack "C" "c.mp3" "F"],
        is_repeat := RepeatMode.all } true = some (sampleTrack "A" "a.mp3" "F") ∧
    get_track_normal_mode
      { current_music := some (sampleTrack "C" "c.mp3" "F"),
        playlist := [sampleTrack "A" "a.mp3" "F", sampleTrack "B" "b.mp3" "F",
                     sampleTrack "C" "c.mp3" "F"] } false =
      some (sampleTrack "B" "b.mp3" "F") := by
  refine ⟨?_, ?_, ?_⟩
  · have h := (normal_mode_positional
      { current_music := some (sampleTrack "C" "c.mp3" "F"),
        playlist := [sampleTrack "A" "a.mp3" "F", sampleTrack "B" "b.mp3" "F",
                     sampleTrack "C" "c.mp3" "F"] }
      (sampleTrack "C" "c.mp3" "F") 2 rfl rfl (by decide) (by decide)).1
    exact h.trans (by decide)
  · have h := (normal_mode_positional
      { current_music := some (sampleTrack "C" "c.mp3" "F"),
        playlist := [sampleTrack "A" "a.mp3" "F", sampleTrack "B" "b.mp3" "F",
                     sampleTrack "C" "c.mp3" "F"],
        is_repeat := RepeatMode.all }
      (sampleTrack "C" "c.mp3" "F") 2 rfl rfl (by decide) (by decide)).1
    exact h.trans (by decide)
  · have h := (normal_mode_positional
      { current_music := some (sampleTrack "C" "c.mp3" "F"),
        playlist := [sampleTrack "A" "a.mp3" "F", sampleTrack "B" "b.mp3" "F",
                     sampleTrack "C" "c.mp3" "F"] }
      (sampleTrack "C" "c.mp3" "F") 2 rfl rfl (by decide) (by decide)).2
    exact h.trans (by decide)

/-- The stale-next for-loop returns the first playlist entry (in playlist
order) whose filename compares greater than the stale filename. -/
theorem findFirstAfter_eq (l : List MusicD) (f : String) :
    findFirstAfter l f = (l.filter (fun m => strLt f m.filename)).head? := by
  induction l with
  | nil => rfl
  | cons m rest ih =>
      unfold findFirstAfter
      by_cases h : strLt f m.filename
      · simp [h, List.filter_cons]
      · simp [h, List.filter_cons, ih]

/-- The stale-previous for-loop (which breaks at the first entry not
below the stale filename) returns the last entry of the longest playlist
segment, starting at the playlist head, whose filenames all compare
below the stale filename. -/
theorem prevBestMatch_eq (l : List MusicD) (f : String) :
    prevBestMatch l f =
      (l.takeWhile (fun m => strLt m.filename f)).getLast? := by
  induction l with
  | nil => rfl
  | cons m rest ih =>
      unfold prevBestMatch
      by_cases h : strLt m.filename f
      · rw [ih]
        cases htw : rest.takeWhile (fun m => strLt m.filename f) with
        | nil => simp [List.takeWhile_cons, h, htw]
        | cons c l' =>
            have hx : ∃ x, (c :: l').getLast? = some x := by
              cases hgl : (c :: l').getLast? with
              | none => exact absurd (List.getLast?_eq_none_iff.mp hgl) (by simp)
              | some x => exact ⟨x, rfl⟩
            obtain ⟨x, hx⟩ := hx
            simp [List.takeWhile_cons, h, htw, hx, List.getLast?_cons_cons]
      · simp [List.takeWhile_cons, h]

/-- C3 counterexample: playlist with filenames `a, c, b` and stale current
filename `bb`.  The last playlist entry whose filename sorts before `bb`
is the `b` entry, but previous-track resolution returns the `a` entry
(the scan breaks at `c`). -/
theorem normal_mode_stale_prev_counterexample :
    get_track_normal_mode
      { current_music := some (sampleTrack "X" "bb" "F"),
        playlist := [sampleTrack "A" "a" "F", sampleTrack "C" "c" "F",
                     sampleTrack "B" "b" "F"] } false =
      some (sampleTrack "A" "a" "F") ∧
    (([sampleTrack "A" "a" "F", sampleTrack "C" "c" "F",
       sampleTrack "B" "b" "F"] : List MusicD).filter
        (fun m => strLt m.filename "bb")).getLast? = some (sampleTrack "B" "b" "F") ∧
    sampleTrack "A" "a" "F" ≠ sampleTrack "B" "b" "F" ∧
    sampleTrack "X" "bb" "F" ∉
      ([sampleTrack "A" "a" "F", sampleTrack "C" "c" "F",
        sampleTrack "B" "b" "F"] : List MusicD) := by
  decide

/-- C3 (amended): in normal mode with a stale `current_music` (absent from
the non-empty playlist), next is the first playlist entry whose filename
sorts after the stale filename, defaulting to the first track; previous is
the last entry of the longest playlist segment starting at the head whose
filenames all sort before the stale filename — the scan stops at the first
entry that does not sort before it — defaulting to the last track. -/
theorem normal_mode_stale_recovery (st : PlayerState) (cur : MusicD)
    (_hsh : st.is_shuffle = false)
    (hcur : st.current_music = some cur)
    (hmem : cur ∉ st.playlist)
    (_hne : st.playlist ≠ []) :
    get_track_normal_mode st true =
      ((st.playlist.filter (fun m => strLt cur.filename m.filename)).head?).or
        st.playlist.head? ∧
    get_track_normal_mode st false =
      ((st.playlist.takeWhile (fun m => strLt m.filename cur.filename)).getLast?).or
        st.playlist.getLast? := by
  unfold get_track_normal_mode
  rw [hcur]
  simp only [if_neg hmem]
  constructor
  · rw [findFirstAfter_eq]
    cases (st.playlist.filter (fun m => strLt cur.filename m.filename)).head? <;> rfl
  · rw [prevBestMatch_eq]
    cases (st.playlist.takeWhile (fun m => strLt m.filename cur.filename)).getLast? <;> rfl

/-- C3 witness: the spec's own example — playlist `[B, C]`, stale current
filename `"a"`: next resolves to `B`, previous to `C`. -/
theorem normal_mode_stale_recovery_witness :
    get_track_normal_mode
      { current_music := some (sampleTrack "A" "a" "F"),
        playlist := [sampleTrack "B" "b" "F", sampleTrack "C" "c" "F"] } true =
      some (sampleTrack "B" "b" "F") ∧
    get_track_normal_mode
      { current_music := some (sampleTrack "A" "a" "F"),
        playlist := [sampleTrack "B" "b" "F", sampleTrack "C" "c" "F"] } false =
      some (sampleTrack "C" "c" "F") := by
  have h := normal_mode_stale_recovery
    { current_music := some (sampleTrack "A" "a" "F"),
      playlist := [sampleTrack "B" "b" "F", sampleTrack "C" "c" "F"] }
    (sampleTrack "A" "a" "F") rfl rfl (by decide) (by decide)
  exact ⟨h.1.trans (by decide), h.2.trans (by decide)⟩

/-- Tracks used by the shuffle-mode claims. -/
def shA : MusicD := sampleTrack "A" "a.mp3" "F"

/-- Second shuffle-claim track. -/
def shB : MusicD := sampleTrack "B" "b.mp3" "F"

/-- Third shuffle-claim track. -/
def shC : MusicD := sampleTrack "C" "c.mp3" "F"

/-- C2 counterexample: shuffle mode with playlist `[A, B]`, history `[A]`
and current `B` (absent from the history).  `A` is a playlist member, yet
no possible outcome of next-track resolution is `A`: the draw is taken
from the unplayed tracks only, not from the full playlist. -/
theorem shuffle_next_not_full_playlist :
    shB ∉ ({ is_shuffle := true, current_music := some shB,
             playlist := [shA, shB], played_music := [shA] } : PlayerState).played_music ∧
    shA ∈ ({ is_shuffle := true, current_music := some shB,
             playlist := [shA, shB], played_music := [shA] } : PlayerState).playlist ∧
    ¬ possibleShuffleResult
        { is_shuffle := true, current_music := some shB,
          playlist := [shA, shB], played_music := [shA] } true (some shA) := by
  decide

/-- Shape of the next-track shuffle step when the current track is absent
from the history (the final `else` branch of `_get_track_shuffle_mode`). -/
theorem get_track_shuffle_mode_next_absent (st : PlayerState) (cur : MusicD)
    (hcur : st.current_music = some cur) (hmem : cur ∉ st.played_music) :
    get_track_shuffle_mode st true =
      (if st.playlist.filter (fun m => !st.played_music.contains m) ≠ [] then
        { candidates := st.playlist.filter (fun m => !st.played_music.contains m),
          clearsPlayed := false }
      else if st.playlist ≠ [] ∧ st.is_repeat = RepeatMode.all then
        { candidates := st.playlist, clearsPlayed := true }
      else { candidates := [], clearsPlayed := false }) := by
  unfold get_track_shuffle_mode
  simp only [hcur]
  rw [if_neg hmem]
  simp

/-- Shape of the previous-track shuffle step when the current track is
absent from the history. -/
theorem get_track_shuffle_mode_prev_absent (st : PlayerState) (cur : MusicD)
    (hcur : st.current_music = some cur) (hmem : cur ∉ st.played_music) :
    get_track_shuffle_mode st false =
      (match st.played_music.getLast? with
       | some m => { candidates := [m], clearsPlayed := false }
       | none => { candidates := [], clearsPlayed := false }) := by
  unfold get_track_shuffle_mode
  simp only [hcur]
  rw [if_neg hmem]
  simp

/-- C2 (amended): in shuffle mode with `current_music` set but absent from
`played_music` and a non-empty playlist, next-track resolution draws from
the unplayed part of the playlist (`playlist` minus `played_music`) when
it is non-empty; when every playlist entry was already played it clears
the history and draws from the full playlist if repeat is "all", else
yields none.  Previous-track resolution returns the last element of
`played_music` if non-empty, else none. -/
theorem shuffle_absent_from_history (st : PlayerState) (cur : MusicD)
    (_hsh : st.is_shuffle = true)
    (hcur : st.current_music = some cur)
    (hmem : cur ∉ st.played_music)
    (hpl : st.playlist ≠ []) :
    (st.playlist.filter (fun m => !st.played_music.contains m) ≠ [] →
      ∀ r, possibleShuffleResult st true r ↔
        ∃ m ∈ st.playlist.filter (fun m => !st.played_music.contains m),
          r = some m) ∧
    (st.playlist.filter (fun m => !st.played_music.contains m) = [] →
      st.is_repeat = RepeatMode.all →
      (∀ r, possibleShuffleResult st true r ↔ ∃ m ∈ st.playlist, r = some m) ∧
      playedMusicAfterShuffle st true = []) ∧
    (st.playlist.filter (fun m => !st.played_music.contains m) = [] →
      st.is_repeat ≠ RepeatMode.all →
      ∀ r, possibleShuffleResult st true r ↔ r = none) ∧
    (∀ r, possibleShuffleResult st false r ↔ r = st.played_music.getLast?) := by
  have hstep_next : ∀ r, possibleShuffleResult st true r ↔
      ((get_track_shuffle_mode st true).candidates = [] ∧ r = none) ∨
      ∃ m ∈ (get_track_shuffle_mode st true).candidates, r = some m := by
    intro r; rfl
  refine ⟨?_, ?_, ?_, ?_⟩
  · intro havail r
    rw [hstep_next r, get_track_shuffle_mode_next_absent st cur hcur hmem,
      if_pos havail]
    constructor
    · rintro (⟨hnil, _⟩ | h)
      · exact absurd hnil havail
      · exact h
    · exact Or.inr
  · intro havail hrep
    have hcand : get_track_shuffle_mode st true =
        { candidates := st.playlist, clearsPlayed := true } := by
      rw [get_track_shuffle_mode_next_absent st cur hcur hmem,
        if_neg (by simpa using havail), if_pos ⟨hpl, hrep⟩]
    constructor
    · intro r
      rw [hstep_next r, hcand]
      constructor
      · rintro (⟨hnil, _⟩ | h)
        · exact absurd hnil hpl
        · exact h
      · exact Or.inr
    · unfold playedMusicAfterShuffle
      rw [hcand]
      rfl
  · intro havail hrep r
    have hcand : get_track_shuffle_mode st true =
        { candidates := [], clearsPlayed := false } := by
      rw [get_track_shuffle_mode_next_absent st cur hcur hmem,
        if_neg (by simpa using havail), if_neg (by simp [hrep])]
    rw [hstep_next r, hcand]
    simp
  · intro r
    have hstep : possibleShuffleResult st false r ↔
        ((get_track_shuffle_mode st false).candidates = [] ∧ r = none) ∨
        ∃ m ∈ (get_track_shuffle_mode st false).candidates, r = some m := Iff.rfl
    rw [hstep, get_track_shuffle_mode_prev_absent st cur hcur hmem]
    cases hg : st.played_music.getLast? with
    | none => simp
    | some m => simp

/-- C2 witness: playlist `[A, B]`, history `[A]`, current `B`: the
unplayed track `B` is a possible next outcome, and the previous outcome is
exactly `A`, the last history entry. -/
theorem shuffle_absent_from_history_witness :
    possibleShuffleResult
      { is_shuffle := true, current_music := some shB,
        playlist := [shA, shB], played_music := [shA] } true (some shB) ∧
    possibleShuffleResult
      { is_shuffle := true, current_music := some shB,
        playlist := [shA, shB], played_music := [shA] } false (some shA) := by
  have h := shuffle_absent_from_history
    { is_shuffle := true, current_music := some shB,
      playlist := [shA, shB], played_music := [shA] } shB rfl rfl
    (by decide) (by decide)
  constructor
  · exact (h.1 (by decide) (some shB)).mpr ⟨shB, by decide, rfl⟩
  · exact (h.2.2.2 (some shA)).mpr (by decide)

/-- Index of an element appended to a list not containing it. -/
theorem indexOf_append_singleton {α : Type} [DecidableEq α] (ys : List α) (a : α)
    (ha : a ∉ ys) : (ys ++ [a]).indexOf a = ys.length := by
  induction ys with
  | nil => simp
  | cons y ys ih =>
      have hy : y ≠ a := by
        rintro rfl
        exact ha (by simp)
      rw [List.cons_append, List.indexOf_cons_ne _ hy,
        ih (fun h => ha (by simp [h]))]
      rfl

/-- The first index of the last element of a duplicate-free list is the
last position. -/
theorem indexOf_getLast_of_nodup {α : Type} [DecidableEq α] {l : List α} {a : α}
    (hl : l.getLast? = some a) (hnd : l.Nodup) :
    l.indexOf a = l.length - 1 := by
  obtain ⟨ys, rfl⟩ := List.getLast?_eq_some_iff.mp hl
  have ha : a ∉ ys := by
    intro h
    exact (List.disjoint_of_nodup_append hnd) h (by simp)
  rw [indexOf_append_singleton ys a ha]
  simp

/-- C5: in shuffle mode with repeat "all", when `current_music` is the
last history entry, the history has no duplicates, every playlist entry
was already played and the playlist is non-empty, next-track resolution
clears `played_music`, cannot yield none, and every possible outcome —
indeed every playlist member — is drawn from the full playlist. -/
theorem shuffle_exhaustion_repeat_all (st : PlayerState) (cur : MusicD)
    (_hsh : st.is_shuffle = true)
    (hcur : st.current_music = some cur)
    (hlast : st.played_music.getLast? = some cur)
    (hnd : st.played_music.Nodup)
    (hall : ∀ m ∈ st.playlist, m ∈ st.played_music)
    (hpl : st.playlist ≠ [])
    (hrep : st.is_repeat = RepeatMode.all) :
    playedMusicAfterShuffle st true = [] ∧
    ¬ possibleShuffleResult st true none ∧
    (∀ r, possibleShuffleResult st true r → ∃ m ∈ st.playlist, r = some m) ∧
    (∀ m ∈ st.playlist, possibleShuffleResult st true (some m)) := by
  have hmem : cur ∈ st.played_music := by
    obtain ⟨ys, hys⟩ := List.getLast?_eq_some_iff.mp hlast
    rw [hys]
    simp
  have hidx : st.played_music.indexOf cur = st.played_music.length - 1 :=
    indexOf_getLast_of_nodup hlast hnd
  have havail : st.playlist.filter (fun m => !st.played_music.contains m) = [] := by
    rw [List.filter_eq_nil_iff]
    intro a ha
    simpa using hall a ha
  have hcand : get_track_shuffle_mode st true =
      { candidates := st.playlist, clearsPlayed := true } := by
    unfold get_track_shuffle_mode
    simp only [hcur]
    rw [if_pos hmem]
    simp [hidx, havail, hrep, hpl]
    exact hall
  have hstep : ∀ r, possibleShuffleResult st true r ↔
      ((get_track_shuffle_mode st true).candidates = [] ∧ r = none) ∨
      ∃ m ∈ (get_track_shuffle_mode st true).candidates, r = some m := by
    intro r; rfl
  refine ⟨?_, ?_, ?_, ?_⟩
  · unfold playedMusicAfterShuffle
    rw [hcand]
    rfl
  · rw [hstep none, hcand]
    rintro (⟨hnil, _⟩ | ⟨m, _, hm⟩)
    · exact hpl hnil
    · exact Option.noConfusion hm
  · intro r hr
    rcases (hstep r).mp hr with ⟨hnil, _⟩ | h
    · rw [hcand] at hnil
      exact absurd hnil hpl
    · rw [hcand] at h
      exact h
  · intro m hm
    rw [hstep (some m), hcand]
    exact Or.inr ⟨m, hm, rfl⟩

/-- C5 witness: playlist `[A,B,C]` fully played, current `C`, repeat
"all": history is cleared and each of `A`, `B`, `C` is a possible next
track. -/
theorem shuffle_exhaustion_repeat_all_witness :
    playedMusicAfterShuffle
      { is_shuffle := true, is_repeat := RepeatMode.all,
        current_music := some shC, playlist := [shA, shB, shC],
        played_music := [shA, shB, shC] } true = [] ∧
    possibleShuffleResult
      { is_shuffle := true, is_repeat := RepeatMode.all,
        current_music := some shC, playlist := [shA, shB, shC],
        played_music := [shA, shB, shC] } true (some shA) ∧
    ¬ possibleShuffleResult
      { is_shuffle := true, is_repeat := RepeatMode.all,
        current_music := some shC, playlist := [shA, shB, shC],
        played_music := [shA, shB, shC] } true none := by
  have h := shuffle_exhaustion_repeat_all
    { is_shuffle := true, is_repeat := RepeatMode.all,
      current_music := some shC, playlist := [shA, shB, shC],
      played_music := [shA, shB, shC] } shC rfl rfl (by decide)
    (by decide) (by decide) (by decide) rfl
  exact ⟨h.1, h.2.2.2 shA (by decide), h.2.1⟩

/-- A letter is never a digit (the ASCII ranges are disjoint). -/
theorem isAlpha_isDigit_false {c : Char} (h : c.isAlpha = true) :
    c.isDigit = false := by
  simp only [Char.isAlpha, Char.isUpper, Char.isLower, Char.isDigit,
    Bool.or_eq_true, Bool.and_eq_true, decide_eq_true_eq] at *
  rw [Bool.and_eq_false_iff]
  right
  simp only [decide_eq_false_iff_not]
  intro hle
  have h57 : c.val.toNat ≤ (57 : UInt32).toNat := hle
  have e57 : (57 : UInt32).toNat = 57 := rfl
  rw [e57] at h57
  rcases h with ⟨h1, _⟩ | ⟨h1, _⟩ <;>
    · have h65 : (65 : UInt32).toNat ≤ c.val.toNat := le_trans (by decide) h1
      have e65 : (65 : UInt32).toNat = 65 := rfl
      rw [e65] at h65
      omega

/-- C8: the list-sort comparison puts every key that begins with a digit
run in a lower tier than every key that begins with a letter; within the
numeric tier keys are ordered by the integer value of the leading digit
run, not lexicographically; and sorting the titles
`["10. Track", "2. Track", "Intro"]` yields
`["2. Track", "10. Track", "Intro"]`. -/
theorem numeric_sort_tiering :
    (∀ (s t : String) (c d : Char),
      s.data.head? = some c → c.isDigit = true →
      t.data.head? = some d → d.isAlpha = true →
      sortKeyLt (sort_key s) (sort_key t) = true) ∧
    (∀ (s t : String),
      leadingDigitRun s ≠ [] → leadingDigitRun t ≠ [] →
      digitRunVal (leadingDigitRun s) < digitRunVal (leadingDigitRun t) →
      sortKeyLt (sort_key s) (sort_key t) = true) ∧
    ((sort_list_by (fun m => m.title)
        [sampleTrack "10. Track" "t10.mp3" "F",
         sampleTrack "2. Track" "t2.mp3" "F",
         sampleTrack "Intro" "t0.mp3" "F"]).map (fun m => m.title) =
      ["2. Track", "10. Track", "Intro"]) := by
  refine ⟨?_, ?_, ?_⟩
  · intro s t c d hs hc ht hd
    have hsrun : leadingDigitRun s ≠ [] := by
      unfold leadingDigitRun
      cases hsd : s.data with
      | nil => rw [hsd] at hs; exact absurd hs (by simp)
      | cons c' rest =>
          rw [hsd] at hs
          have : c' = c := by simpa using hs
          subst this
          simp [List.takeWhile_cons, hc]
    have htrun : leadingDigitRun t = [] := by
      unfold leadingDigitRun
      cases htd : t.data with
      | nil => rfl
      | cons d' rest =>
          rw [htd] at ht
          have : d' = d := by simpa using ht
          subst this
          simp [List.takeWhile_cons, isAlpha_isDigit_false hd]
    unfold sort_key
    rw [if_neg hsrun, if_pos htrun]
    rfl
  · intro s t hsrun htrun hv
    unfold sort_key
    rw [if_neg hsrun, if_neg htrun]
    unfold sortKeyLt
    simp [hv]
  · decide

/-- C8 witness: the two tier statements applied to the keys of the
concrete example — `"2. track"` sorts below `"10. track"` by numeric
value, and `"10. track"` sorts below `"intro"` by tier. -/
theorem numeric_sort_tiering_witness :
    sortKeyLt (sort_key "2. track") (sort_key "10. track") = true ∧
    sortKeyLt (sort_key "10. track") (sort_key "intro") = true :=
  ⟨numeric_sort_tiering.2.1 "2. track" "10. track" (by decide) (by decide)
      (by decide),
   numeric_sort_tiering.1 "10. track" "intro" '1' 'i' (by decide) (by decide)
      (by decide) (by decide)⟩

/-- `update_position` always issues exactly one store write. -/
theorem update_position_storeWrites (repo : PlayerRepositoryState)
    (now position : Int) :
    (update_position repo now position).storeWrites = repo.storeWrites + 1 := rfl

/-- Store-write count of a tick sequence: starting below the threshold,
the counter mechanism issues exactly one durable write per full group of
`threshold` ticks. -/
theorem runTicks_storeWrites (threshold : Nat) (hthr : 0 < threshold) :
    ∀ (ticks : List (Int × Int)) (s : AudioTickState),
      s.position_update_counter < threshold →
      (runTicks threshold s ticks).repo.storeWrites =
        s.repo.storeWrites +
          (s.position_update_counter + ticks.length) / threshold := by
  intro ticks
  induction ticks with
  | nil =>
      intro s hc
      simp [runTicks, Nat.div_eq_of_lt hc]
  | cons tp rest ih =>
      intro s hc
      have hstep : runTicks threshold s (tp :: rest) =
          runTicks threshold
            (on_audio_position_changed threshold s tp.1 tp.2) rest := rfl
      rw [hstep]
      unfold on_audio_position_changed
      by_cases hge : threshold ≤ s.position_update_counter + 1
      · have heq : s.position_update_counter + 1 = threshold := by omega
        rw [if_pos hge, ih _ (by show 0 < threshold; exact hthr)]
        rw [update_position_storeWrites]
        have harith :
            (s.position_update_counter + (rest.length + 1)) / threshold =
              rest.length / threshold + 1 := by
          have : s.position_update_counter + (rest.length + 1) =
              rest.length + threshold := by omega
          rw [this, Nat.add_div_right _ hthr]
        simp only [List.length_cons, harith, Nat.zero_add]
        omega
      · rw [if_neg hge,
          ih _ (by show s.position_update_counter + 1 < threshold; omega)]
        have harith : s.position_update_counter + 1 + rest.length =
            s.position_update_counter + (rest.length + 1) := by omega
        simp only [List.length_cons, harith]

/-- C9: position persistence is throttled at-most-every-N-ticks: with the
counter mechanism of the position-changed handler at threshold N, any
tick sequence started below the threshold issues exactly
`⌊(counter + ticks)/N⌋` durable writes; with a throttle of 3, nine ticks
produce exactly 3 durable writes — after ticks 3, 6 and 9 and at no other
time — and the 9th tick's position is both in the store column and still
in the cached state for a later flush.  The source's threshold constant is
10. -/
theorem position_persist_throttle :
    (∀ (threshold : Nat) (ticks : List (Int × Int)) (s : AudioTickState),
      0 < threshold → s.position_update_counter < threshold →
      (runTicks threshold s ticks).repo.storeWrites =
        s.repo.storeWrites +
          (s.position_update_counter + ticks.length) / threshold) ∧
    (∀ (st0 : PlayerState) (p1 p2 p3 p4 p5 p6 p7 p8 p9 : Int),
      (runTicks 3 ⟨0, ⟨⟨some st0, 0, 5⟩, none, 0⟩⟩
        [(1, p1), (2, p2), (3, p3), (4, p4), (5, p5), (6, p6), (7, p7),
         (8, p8), (9, p9)]).repo.storeWrites = 3 ∧
      (runTicks 3 ⟨0, ⟨⟨some st0, 0, 5⟩, none, 0⟩⟩
        [(1, p1), (2, p2), (3, p3), (4, p4), (5, p5), (6, p6), (7, p7),
         (8, p8), (9, p9)]).repo.storePosition = some p9 ∧
      (runTicks 3 ⟨0, ⟨⟨some st0, 0, 5⟩, none, 0⟩⟩
        [(1, p1), (2, p2), (3, p3), (4, p4), (5, p5), (6, p6), (7, p7),
         (8, p8), (9, p9)]).repo.cache.data =
        some { st0 with audio_position := some p9 } ∧
      (runTicks 3 ⟨0, ⟨⟨some st0, 0, 5⟩, none, 0⟩⟩
        [(1, p1), (2, p2)]).repo.storeWrites = 0 ∧
      (runTicks 3 ⟨0, ⟨⟨some st0, 0, 5⟩, none, 0⟩⟩
        [(1, p1), (2, p2), (3, p3)]).repo.storeWrites = 1 ∧
      (runTicks 3 ⟨0, ⟨⟨some st0, 0, 5⟩, none, 0⟩⟩
        [(1, p1), (2, p2), (3, p3), (4, p4), (5, p5)]).repo.storeWrites = 1 ∧
      (runTicks 3 ⟨0, ⟨⟨some st0, 0, 5⟩, none, 0⟩⟩
        [(1, p1), (2, p2), (3, p3), (4, p4), (5, p5), (6, p6)]).repo.storeWrites
        = 2 ∧
      (runTicks 3 ⟨0, ⟨⟨some st0, 0, 5⟩, none, 0⟩⟩
        [(1, p1), (2, p2), (3, p3), (4, p4), (5, p5), (6, p6), (7, p7),
         (8, p8)]).repo.storeWrites = 2) ∧
    positionUpdateThreshold = 10 := by
  refine ⟨?_, ?_, rfl⟩
  · intro threshold ticks s hthr hc
    exact runTicks_storeWrites threshold hthr ticks s hc
  · intro st0 p1 p2 p3 p4 p5 p6 p7 p8 p9
    exact ⟨rfl, rfl, rfl, rfl, rfl, rfl, rfl, rfl⟩

/-- C9 witness: the throttle-count formula evaluated on a concrete
4-tick run at threshold 3 (one durable write). -/
theorem position_persist_throttle_witness :
    (runTicks 3 ⟨0, ⟨⟨some ({} : PlayerState), 0, 5⟩, none, 0⟩⟩
      [(1, 11), (2, 12), (3, 13), (4, 14)]).repo.storeWrites =
      0 + (0 + 4) / 3 :=
  position_persist_throttle.1 3 [(1, 11), (2, 12), (3, 13), (4, 14)]
    ⟨0, ⟨⟨some ({} : PlayerState), 0, 5⟩, none, 0⟩⟩ (by decide) (by decide)

end Plaii
